import Mathlib

/-!
Verification of the notectl command-line note utility.

The definitions below are a shallow embedding of the Go source
(`src/unnamed/part_001`): the persisted `notes` table, the note model, the
query functions, and the dispatch logic of the three subcommands
`new`, `show` and `delete`.
-/

namespace Notectl

/-- One row of the `notes` table, schema
`id INTEGER PRIMARY KEY, day INTEGER, month INTEGER, year INTEGER,
timestamp INTEGER, notetext BLOB, tags TEXT` (see `createTableIfNotExist`). -/
structure Row where
  id : Nat
  day : Int
  month : Int
  year : Int
  timestamp : Int
  notetext : String
  tags : String
deriving DecidableEq

/-- The persisted `notes` table, rows in insertion order. -/
structure Table where
  rows : List Row
deriving DecidableEq

/-- The projection of a Go `time.Time` value the program uses:
`Day()`, `Month()`, `Year()` and `Unix()`. -/
structure Timestamp where
  day : Int
  month : Int
  year : Int
  unix : Int
deriving DecidableEq

/-- The in-memory note model: `type note struct { Time; Text; Tags }`. -/
structure Note where
  time : Timestamp
  text : String
  tags : List String
deriving DecidableEq

/-- Go `strings.Split` for a one-character separator: split at every
occurrence of `sep`; the result is never the empty list. -/
def goSplit (sep : Char) : List Char → List (List Char)
  | [] => [[]]
  | c :: rest =>
    if c = sep then [] :: goSplit sep rest
    else
      match goSplit sep rest with
      | hd :: tl => (c :: hd) :: tl
      | [] => [[c]]

/-- Digit loop of Go `strconv.Atoi`: accumulates decimal digits, failing on
any non-digit character. (Go clamps on 64-bit overflow; no claim here
involves values anywhere near that range.) -/
def parseDigitsAux : List Char → Nat → Option Nat
  | [], acc => some acc
  | c :: rest, acc =>
    if c.isDigit then parseDigitsAux rest (acc * 10 + (c.toNat - 48))
    else none

/-- Go `strconv.Atoi` digit part: at least one digit is required. -/
def parseDigits : List Char → Option Nat
  | [] => none
  | cs => parseDigitsAux cs 0

/-- Go `v, _ = strconv.Atoi(s)` with the error discarded, as in
`showNoteByDate`: the first return value, which is `0` whenever the string is
not a well-formed integer (optional sign, then digits). -/
def goAtoi (cs : List Char) : Int :=
  match cs with
  | '+' :: rest =>
    match parseDigits rest with
    | some n => (n : Int)
    | none => 0
  | '-' :: rest =>
    match parseDigits rest with
    | some n => -(n : Int)
    | none => 0
  | _ =>
    match parseDigits cs with
    | some n => (n : Int)
    | none => 0

/-- Go `strings.Join(l, sep)` with a single-space separator. -/
def joinSpace : List String → String
  | [] => ""
  | [s] => s
  | s :: rest => s ++ " " ++ joinSpace rest

/-- `tagList.Set`: `strings.Split(value, ",")`. -/
def tagListSet (value : String) : List String :=
  (goSplit ',' value.data).map fun cs => String.mk cs

/-- `tagList.String()`: Go renders a `[]string` with the `%v` verb, i.e. the
elements space-joined inside square brackets (`[a b]`). -/
def tagListString (tags : List String) : String :=
  "[" ++ joinSpace tags ++ "]"

/-- The id SQLite assigns to an inserted row whose `INTEGER PRIMARY KEY`
column is omitted: one more than the largest id currently in the table
(`1` for a freshly created table). -/
def nextId (t : Table) : Nat :=
  (t.rows.map Row.id).foldr max 0 + 1

/-- `note.Save`: `INSERT INTO notes (day, month, year, timestamp, notetext,
tags) VALUES (Day(), Month(), Year(), Unix(), Text, Tags.String())`. -/
def saveNote (n : Note) (t : Table) : Table :=
  { rows := t.rows ++
      [⟨nextId t, n.time.day, n.time.month, n.time.year, n.time.unix, n.text,
        tagListString n.tags⟩] }

/-- `showAllNotes`: `SELECT * FROM notes`. -/
def showAllNotes (t : Table) : List Row :=
  t.rows

/-- `showNoteByID`: `SELECT * FROM notes WHERE id = (?)`. -/
def showNoteByID (i : Int) (t : Table) : List Row :=
  t.rows.filter fun r => (r.id : Int) == i

/-- `showNoteByDay`: `WHERE day = (?) AND month = (?) AND year = (?)` with
the current month and year from `time.Now()`. -/
def showNoteByDay (day : Int) (now : Timestamp) (t : Table) : List Row :=
  t.rows.filter fun r => r.day == day && r.month == now.month && r.year == now.year

/-- `showNoteByMonth`: `WHERE month = (?) AND year = (?)` with the current
year from `time.Now()`. -/
def showNoteByMonth (month : Int) (now : Timestamp) (t : Table) : List Row :=
  t.rows.filter fun r => r.month == month && r.year == now.year

/-- `showNoteByYear`: `WHERE year = (?)`. -/
def showNoteByYear (year : Int) (t : Table) : List Row :=
  t.rows.filter fun r => r.year == year

/-- The query issued at the end of `showNoteByDate`:
`WHERE day = (?) AND month = (?) AND year = (?)`. -/
def queryByDate (day month year : Int) (t : Table) : List Row :=
  t.rows.filter fun r => r.day == day && r.month == month && r.year == year

/-- `showNoteByDate`: splits the date on `/`, indexes parts 0, 1 and 2
(a Go index-out-of-range panic, modelled as `none`, when fewer than three
parts exist), parses each part with the error-discarding `Atoi`, and runs the
composite query; in USA mode parts 0 and 1 swap roles. -/
def showNoteByDate (date : String) (usa : Bool) (t : Table) : Option (List Row) :=
  let d := goSplit '/' date.data
  match d.get? 0, d.get? 1, d.get? 2 with
  | some p0, some p1, some p2 =>
    if usa then some (queryByDate (goAtoi p1) (goAtoi p0) (goAtoi p2) t)
    else some (queryByDate (goAtoi p0) (goAtoi p1) (goAtoi p2) t)
  | _, _, _ => none

/-- `deleteAll` after the prompt: reads the first rune of standard input
(`none` models the panic on an unreadable, e.g. empty, input); `y` or `Y`
drops and recreates the table, anything else leaves it unchanged. -/
def deleteAllGo (stdin : String) (t : Table) : Option Table :=
  match stdin.data with
  | [] => none
  | c :: _ => some (if c = 'y' ∨ c = 'Y' then { rows := [] } else t)

/-- `connectToDatabase` followed by `createTableIfNotExist`: the persisted
database is `none` while the notes table does not yet exist, and the idempotent
`CREATE TABLE IF NOT EXISTS` yields an empty table in that case. -/
def ensureTable (db : Option Table) : Table :=
  db.getD { rows := [] }

/-- The rows persisted in a database state (none while the table is absent). -/
def dbRows (db : Option Table) : List Row :=
  match db with
  | some t => t.rows
  | none => []

/-- The parsed flag set of a `show` invocation, with the defaults the code
registers: `false`, sentinel `-1` for the integer filters, `""` for the date. -/
structure ShowFlags where
  all : Bool := false
  i : Int := -1
  day : Int := -1
  month : Int := -1
  year : Int := -1
  date : String := ""
  usa : Bool := false
deriving DecidableEq

/-- The storage call a `show` invocation resolves to. -/
inductive ShowAction where
  | queryAll
  | queryById (i : Int)
  | queryByDay (d : Int)
  | queryByMonth (m : Int)
  | queryByYear (y : Int)
  | queryByDate (date : String) (usa : Bool)
  | usage
deriving DecidableEq

/-- The `if / else if` chain of the show branch of `main`. -/
def showDispatch (f : ShowFlags) : ShowAction :=
  if f.all then .queryAll
  else if f.i ≠ -1 then .queryById f.i
  else if f.day ≠ -1 then .queryByDay f.day
  else if f.month ≠ -1 then .queryByMonth f.month
  else if f.year ≠ -1 then .queryByYear f.year
  else if f.date ≠ "" then .queryByDate f.date f.usa
  else .usage

/-- The set filters of a `show` invocation, listed in the precedence order in
which the code checks them. -/
def showSetFilters (f : ShowFlags) : List ShowAction :=
  (if f.all then [ShowAction.queryAll] else [])
  ++ (if f.i ≠ -1 then [ShowAction.queryById f.i] else [])
  ++ (if f.day ≠ -1 then [ShowAction.queryByDay f.day] else [])
  ++ (if f.month ≠ -1 then [ShowAction.queryByMonth f.month] else [])
  ++ (if f.year ≠ -1 then [ShowAction.queryByYear f.year] else [])
  ++ (if f.date ≠ "" then [ShowAction.queryByDate f.date f.usa] else [])

/-- Observable outcome of the show branch: the rows printed, a usage-error
exit with status 1, or a runtime panic. -/
inductive ShowOutcome where
  | printed (rows : List Row)
  | usageExit
  | panicked
deriving DecidableEq

/-- The show branch of `main` after the table is ensured. -/
def runShow (f : ShowFlags) (now : Timestamp) (t : Table) : ShowOutcome :=
  match showDispatch f with
  | .queryAll => .printed (showAllNotes t)
  | .queryById i => .printed (showNoteByID i t)
  | .queryByDay d => .printed (showNoteByDay d now t)
  | .queryByMonth m => .printed (showNoteByMonth m now t)
  | .queryByYear y => .printed (showNoteByYear y t)
  | .queryByDate s u =>
    match showNoteByDate s u t with
    | some rows => .printed rows
    | none => .panicked
  | .usage => .usageExit

/-- The full show branch of `main`: connect, ensure the table, dispatch.
Returns the outcome and the final persisted state. -/
def runShowCmd (f : ShowFlags) (now : Timestamp) (db : Option Table) :
    ShowOutcome × Option Table :=
  let t := ensureTable db
  (runShow f now t, some t)

/-- Observable outcome of the delete branch. -/
inductive DeleteOutcome where
  | ok
  | usageExit
  | panicked
deriving DecidableEq

/-- The delete branch of `main`: connect, ensure the table, then either the
confirmed `deleteAll` or a usage-error exit when `-all` is not given. -/
def runDeleteCmd (allFlag : Bool) (stdin : String) (db : Option Table) :
    DeleteOutcome × Option Table :=
  let t := ensureTable db
  if allFlag then
    match deleteAllGo stdin t with
    | some t2 => (.ok, some t2)
    | none => (.panicked, some t)
  else (.usageExit, some t)

/-- The parsed flag set of a `new` invocation: for each flag whether it was
given on the command line and its value, plus `newCommand.Args()`
(`posArgs`) and `len(os.Args[2:])` (`rawArgCount`, the raw token count). -/
structure NewInvocation where
  nSet : Bool := false
  nVal : String := ""
  tSet : Bool := false
  tVal : String := ""
  eSet : Bool := false
  eVal : Bool := false
  posArgs : List String := []
  rawArgCount : Nat := 0
deriving DecidableEq

/-- `newCommand.NFlag()`: the number of flags set on the command line. -/
def NewInvocation.nflag (v : NewInvocation) : Nat :=
  (if v.nSet then 1 else 0) + (if v.tSet then 1 else 0) + (if v.eSet then 1 else 0)

/-- Facts the Go flag package guarantees about a parsed invocation (absent a
bare `--` terminator token): a flag not given holds its registered default,
the positional arguments are among the raw tokens, and when no flag at all is
set the raw tokens are exactly the positional arguments. -/
structure NewInvocation.WF (v : NewInvocation) : Prop where
  nDefault : v.nSet = false → v.nVal = ""
  tDefault : v.tSet = false → v.tVal = ""
  eDefault : v.eSet = false → v.eVal = false
  rawGe : v.posArgs.length ≤ v.rawArgCount
  rawNoFlag : v.nflag = 0 → v.rawArgCount = v.posArgs.length

/-- Tag resolution of the new branch: `-t` splits its value on commas, and an
empty tag list defaults through `newTagList.Set("generic")`. -/
def newResolvedTags (v : NewInvocation) : List String :=
  let tags := if v.tSet then tagListSet v.tVal else []
  if tags.length = 0 then tagListSet "generic" else tags

/-- How a `new` invocation resolves before the note is built. -/
inductive NewOutcome where
  | usageExit
  | editor (tags : List String)
  | saved (text : String) (tags : List String)
deriving DecidableEq

/-- The new branch of `main` up to building the note: the usage check
(`*newNotePtr == "" && NFlag() > 0 && !*newEditorNotePtr`), then the
editor-versus-join decision (`NFlag() == 0 || editor`, then
`len(os.Args[2:]) == 0 || editor`). -/
def runNewResolve (v : NewInvocation) : NewOutcome :=
  if v.nVal = "" ∧ v.nflag > 0 ∧ v.eVal = false then .usageExit
  else if v.nflag = 0 ∨ v.eVal = true then
    if v.rawArgCount = 0 ∨ v.eVal = true then .editor (newResolvedTags v)
    else .saved (joinSpace v.posArgs) (newResolvedTags v)
  else .saved v.nVal (newResolvedTags v)

/-- Observable outcome of the new branch. -/
inductive NewCmdOutcome where
  | ok
  | usageExit
deriving DecidableEq

/-- The full new branch of `main`: connect, ensure the table, resolve the
invocation, build the note (with the text read back from the editor when the
editor ran) and save it. -/
def runNewCmd (v : NewInvocation) (editorText : String) (now : Timestamp)
    (db : Option Table) : NewCmdOutcome × Option Table :=
  let t := ensureTable db
  match runNewResolve v with
  | .usageExit => (.usageExit, some t)
  | .editor tags => (.ok, some (saveNote { time := now, text := editorText, tags := tags } t))
  | .saved text tags => (.ok, some (saveNote { time := now, text := text, tags := tags } t))

/-- A state-changing operation on the notes table: an insert, or a `delete
-all` answered with a confirming or a declining response. -/
inductive Op where
  | insert (n : Note)
  | deleteAllConfirmed
  | deleteAllDeclined
deriving DecidableEq

/-- Effect of one operation: an insert appends via `note.Save`; a confirmed
`delete -all` drops and recreates the table; a declined one changes nothing. -/
def applyOp (op : Op) (t : Table) : Table :=
  match op with
  | .insert n => saveNote n t
  | .deleteAllConfirmed => { rows := [] }
  | .deleteAllDeclined => t

/-- Effect of a sequence of operations, first to last. -/
def applyOps (ops : List Op) (t : Table) : Table :=
  ops.foldl (fun t op => applyOp op t) t

lemma showDispatch_headD (f : ShowFlags) :
    showDispatch f = (showSetFilters f).headD ShowAction.usage := by
  unfold showDispatch showSetFilters
  split_ifs <;> simp_all

lemma showDispatch_usage_of_none {f : ShowFlags} (h : showSetFilters f = []) :
    showDispatch f = ShowAction.usage := by
  rw [showDispatch_headD, h]
  rfl

lemma nflag_zero {v : NewInvocation} (h : v.nflag = 0) :
    v.nSet = false ∧ v.tSet = false ∧ v.eSet = false := by
  cases hn : v.nSet <;> cases ht : v.tSet <;> cases he : v.eSet <;>
    simp_all [NewInvocation.nflag]

lemma le_foldr_max (l : List Nat) (a : Nat) : a ∈ l → a ≤ l.foldr max 0 := by
  induction l with
  | nil => intro h; cases h
  | cons b bs ih =>
    intro h
    rcases List.mem_cons.mp h with hb | hb
    · subst hb
      exact le_max_left _ _
    · exact le_trans (ih hb) (le_max_right _ _)

lemma tagListSet_generic : tagListSet "generic" = ["generic"] := by
  decide

/-- C1: the show subcommand checks its filters in the fixed precedence order
all, id, day, month, year, date; exactly the first filter whose value is set
(integer filters set when not the sentinel -1, the date filter set when not
the empty string) is applied, and when no filter is set the command exits
with a usage error without querying any rows. -/
theorem C1_show_filter_precedence (f : ShowFlags) (now : Timestamp) (t : Table) :
    showDispatch f = (showSetFilters f).headD ShowAction.usage
    ∧ (showSetFilters f = [] →
        runShowCmd f now (some t) = (ShowOutcome.usageExit, some t)) := by
  refine ⟨showDispatch_headD f, fun h => ?_⟩
  simp [runShowCmd, runShow, showDispatch_usage_of_none h, ensureTable]

/-- C1 witness: the default show invocation sets no filter and exits with a
usage error, leaving the table untouched. -/
theorem C1_show_filter_precedence_witness :
    runShowCmd {} ⟨1, 1, 2023, 0⟩ (some { rows := [] })
      = (ShowOutcome.usageExit, some { rows := [] }) :=
  (C1_show_filter_precedence {} ⟨1, 1, 2023, 0⟩ { rows := [] }).2 (by decide)

/-- C4: the day filter returns exactly the rows whose day equals the given
value and whose month and year equal the current month and year; the month
filter returns exactly the rows whose month equals the given value and whose
year equals the current year; a row with the matching day but a different
month is never returned by the day filter. -/
theorem C4_day_month_filters (d m : Int) (now : Timestamp) (t : Table) (r : Row) :
    (r ∈ showNoteByDay d now t
       ↔ r ∈ t.rows ∧ r.day = d ∧ r.month = now.month ∧ r.year = now.year)
    ∧ (r ∈ showNoteByMonth m now t
       ↔ r ∈ t.rows ∧ r.month = m ∧ r.year = now.year)
    ∧ (r.day = d → r.month ≠ now.month → r ∉ showNoteByDay d now t) := by
  have h1 : r ∈ showNoteByDay d now t
      ↔ r ∈ t.rows ∧ r.day = d ∧ r.month = now.month ∧ r.year = now.year := by
    simp [showNoteByDay, List.mem_filter, and_assoc]
  have h2 : r ∈ showNoteByMonth m now t
      ↔ r ∈ t.rows ∧ r.month = m ∧ r.year = now.year := by
    simp [showNoteByMonth, List.mem_filter, and_assoc]
  exact ⟨h1, h2, fun _ hm hmem => hm (h1.mp hmem).2.2.1⟩

/-- C4 witness: a row with the requested day 5 but month 3 is not returned
when the current month is 4. -/
theorem C4_day_month_filters_witness :
    (⟨1, 5, 3, 2023, 0, "a", "[generic]"⟩ : Row)
      ∉ showNoteByDay 5 ⟨5, 4, 2023, 0⟩
          { rows := [⟨1, 5, 3, 2023, 0, "a", "[generic]"⟩] } :=
  (C4_day_month_filters 5 0 ⟨5, 4, 2023, 0⟩
      { rows := [⟨1, 5, 3, 2023, 0, "a", "[generic]"⟩] }
      ⟨1, 5, 3, 2023, 0, "a", "[generic]"⟩).2.2 (by decide) (by decide)

/-- C5 counterexample: the response "Y" is a response other than y, yet it is
not a no-op — it removes the stored row. -/
theorem C5_counterexample :
    runDeleteCmd true "Y" (some { rows := [⟨1, 2, 3, 2023, 0, "a", "[generic]"⟩] })
      = (DeleteOutcome.ok, some { rows := [] })
    ∧ ({ rows := [] } : Table) ≠ { rows := [⟨1, 2, 3, 2023, 0, "a", "[generic]"⟩] } :=
  ⟨by decide, by decide⟩

/-- C5 amended: a delete -all invocation whose response starts with y (or Y)
removes all rows, and a response starting with any other character is a no-op
leaving every row unchanged, which show -all reflects. -/
theorem C5_delete_all_amended (t : Table) (c : Char) (restY restN : List Char) :
    (runDeleteCmd true (String.mk ('y' :: restY)) (some t)
        = (DeleteOutcome.ok, some { rows := [] })
      ∧ runDeleteCmd true (String.mk ('Y' :: restY)) (some t)
        = (DeleteOutcome.ok, some { rows := [] })
      ∧ showAllNotes ({ rows := [] } : Table) = [])
    ∧ (c ≠ 'y' → c ≠ 'Y' →
        runDeleteCmd true (String.mk (c :: restN)) (some t)
          = (DeleteOutcome.ok, some t)
        ∧ showAllNotes t = t.rows) := by
  refine ⟨⟨rfl, rfl, rfl⟩, fun h1 h2 => ⟨?_, rfl⟩⟩
  simp [runDeleteCmd, deleteAllGo, ensureTable, h1, h2]

/-- C5 witness: answering "n" on a one-row table keeps the row. -/
theorem C5_delete_all_amended_witness :
    runDeleteCmd true (String.mk ['n'])
        (some { rows := [⟨1, 2, 3, 2023, 0, "b", "[generic]"⟩] })
      = (DeleteOutcome.ok, some { rows := [⟨1, 2, 3, 2023, 0, "b", "[generic]"⟩] }) :=
  ((C5_delete_all_amended { rows := [⟨1, 2, 3, 2023, 0, "b", "[generic]"⟩] } 'n' [] []).2
      (by decide) (by decide)).1

/-- C6 counterexample: after an insert, a confirmed delete-all and another
insert, id 1 has been assigned to two different rows. -/
theorem C6_counterexample :
    applyOps [Op.insert ⟨⟨1, 1, 2023, 10⟩, "first", ["generic"]⟩] { rows := [] }
      = { rows := [⟨1, 1, 1, 2023, 10, "first", "[generic]"⟩] }
    ∧ applyOps [Op.insert ⟨⟨1, 1, 2023, 10⟩, "first", ["generic"]⟩,
        Op.deleteAllConfirmed,
        Op.insert ⟨⟨2, 1, 2023, 20⟩, "second", ["generic"]⟩] { rows := [] }
      = { rows := [⟨1, 2, 1, 2023, 20, "second", "[generic]"⟩] }
    ∧ (⟨1, 1, 1, 2023, 10, "first", "[generic]"⟩ : Row)
        ≠ ⟨1, 2, 1, 2023, 20, "second", "[generic]"⟩ :=
  ⟨by decide, by decide, by decide⟩

/-- C6 amended: between confirmed delete-alls ids are monotonically
increasing and never reused — each insert appends a row whose id is strictly
greater than every id already present — while a confirmed delete-all drops
and recreates the table, resetting the id counter. -/
theorem C6_id_monotonic_amended (t : Table) (n : Note) (r : Row) :
    (r ∈ t.rows → r.id < nextId t)
    ∧ (saveNote n t).rows.map Row.id = t.rows.map Row.id ++ [nextId t]
    ∧ applyOp Op.deleteAllConfirmed t = { rows := [] } := by
  refine ⟨fun h => ?_, ?_, rfl⟩
  · exact Nat.lt_succ_of_le (le_foldr_max _ _ (List.mem_map_of_mem Row.id h))
  · simp [saveNote]

/-- C6 witness: the single stored row's id is below the next assigned id. -/
theorem C6_id_monotonic_amended_witness :
    (⟨1, 1, 1, 2023, 10, "a", "[generic]"⟩ : Row).id
      < nextId { rows := [⟨1, 1, 1, 2023, 10, "a", "[generic]"⟩] } :=
  (C6_id_monotonic_amended { rows := [⟨1, 1, 1, 2023, 10, "a", "[generic]"⟩] }
      ⟨⟨1, 1, 2023, 10⟩, "x", ["generic"]⟩ ⟨1, 1, 1, 2023, 10, "a", "[generic]"⟩).1
    (by decide)

/-- C10: the delete-all confirmation examines only the first rune of standard
input, treats y and Y as confirmation, and every other first rune — for
example n or a space — declines and leaves the table unchanged. -/
theorem C10_delete_first_rune (c : Char) (rest rest' : List Char) (db : Option Table) :
    runDeleteCmd true (String.mk (c :: rest)) db
        = runDeleteCmd true (String.mk (c :: rest')) db
    ∧ ((c = 'y' ∨ c = 'Y') →
        (runDeleteCmd true (String.mk (c :: rest)) db).2 = some { rows := [] })
    ∧ (c ≠ 'y' → c ≠ 'Y' →
        runDeleteCmd true (String.mk (c :: rest)) db
          = (DeleteOutcome.ok, some (ensureTable db))) := by
  refine ⟨rfl, fun h => ?_, fun h1 h2 => ?_⟩
  · rcases h with h | h <;> subst h <;> rfl
  · simp [runDeleteCmd, deleteAllGo, h1, h2]

/-- C2 counterexample: the invocation `new -n hi` reaches note construction
without launching the editor, and its note text is the -n value "hi", not the
joined (empty) trailing positional arguments. -/
theorem C2_counterexample :
    runNewResolve { nSet := true, nVal := "hi", rawArgCount := 2 }
      = NewOutcome.saved "hi" ["generic"]
    ∧ joinSpace ({ nSet := true, nVal := "hi", rawArgCount := 2 } : NewInvocation).posArgs
        ≠ "hi" :=
  ⟨by decide, by decide⟩

/-- C2 amended: the editor is launched exactly when the open-editor flag is
true or no flag at all and no trailing token is supplied; in the other cases
that reach note construction, the note text is the -n option's value when any
flag is set, and the trailing positional arguments joined with single spaces
when no flag is set. -/
theorem C2_editor_amended (v : NewInvocation) (hwf : v.WF) :
    ((∃ tags, runNewResolve v = NewOutcome.editor tags)
       ↔ (v.eVal = true ∨ (v.nflag = 0 ∧ v.posArgs = [])))
    ∧ (v.nflag = 0 → v.posArgs ≠ [] →
        runNewResolve v = NewOutcome.saved (joinSpace v.posArgs) (newResolvedTags v))
    ∧ (0 < v.nflag → v.eVal = false → v.nVal ≠ "" →
        runNewResolve v = NewOutcome.saved v.nVal (newResolvedTags v)) := by
  obtain ⟨hnd, htd, hed, hge, hraw⟩ := hwf
  refine ⟨⟨?_, ?_⟩, ?_, ?_⟩
  · rintro ⟨tags, htags⟩
    unfold runNewResolve at htags
    split_ifs at htags with hA hB hC
    by_cases hev : v.eVal = true
    · exact Or.inl hev
    · have hev' : v.eVal = false := by
        revert hev
        cases v.eVal <;> simp
      have h0 : v.nflag = 0 := by
        rcases hB with h | h
        · exact h
        · rw [hev'] at h
          cases h
      have hr : v.rawArgCount = 0 := by
        rcases hC with h | h
        · exact h
        · rw [hev'] at h
          cases h
      exact Or.inr ⟨h0, List.length_eq_zero.mp ((hraw h0).symm.trans hr)⟩
  · rintro (hev | ⟨h0, hpos⟩)
    · exact ⟨newResolvedTags v, by simp [runNewResolve, hev]⟩
    · obtain ⟨hn0, ht0, he0⟩ := nflag_zero h0
      have hev' : v.eVal = false := hed he0
      have hr : v.rawArgCount = 0 := by
        simp [hraw h0, hpos]
      exact ⟨newResolvedTags v, by simp [runNewResolve, hev', h0, hr]⟩
  · intro h0 hpos
    obtain ⟨hn0, ht0, he0⟩ := nflag_zero h0
    have hev' : v.eVal = false := hed he0
    have hr : v.rawArgCount ≠ 0 := by
      rw [hraw h0]
      exact fun hc => hpos (List.length_eq_zero.mp hc)
    simp [runNewResolve, hev', h0, hr]
  · intro hfl hev hnv
    simp [runNewResolve, hnv, hev, hfl.ne']

/-- C2 witness: with no flag and the trailing arguments "hi there", the note
text is the space-joined trailing text and the tag set is the default. -/
theorem C2_editor_amended_witness :
    runNewResolve { posArgs := ["hi", "there"], rawArgCount := 2 }
      = NewOutcome.saved (joinSpace ["hi", "there"])
          (newResolvedTags { posArgs := ["hi", "there"], rawArgCount := 2 }) :=
  (C2_editor_amended { posArgs := ["hi", "there"], rawArgCount := 2 }
      ⟨fun _ => rfl, fun _ => rfl, fun _ => rfl, by decide, fun _ => rfl⟩).2.1
    (by decide) (by decide)

/-- C3 counterexample: `notectl new "hello"` stores a row whose tags column
is the string "[generic]", not the comma-joined "generic". -/
theorem C3_counterexample :
    (runNewCmd { posArgs := ["hello"], rawArgCount := 1 } "" ⟨6, 7, 2023, 100⟩
        (some { rows := [] })).2
      = some { rows := [⟨1, 6, 7, 2023, 100, "hello", "[generic]"⟩] }
    ∧ "[generic]" ≠ "generic" :=
  ⟨by decide, by decide⟩

/-- C3 amended: with no tag option the note's tag set is exactly ["generic"],
and the tags column of the inserted row is the Go %v rendering of the tag
list — the tags space-joined inside square brackets — so `new "hello"`
stores a row whose tags column is "[generic]". -/
theorem C3_default_tag_amended (v : NewInvocation) (n : Note) (t : Table) :
    (v.tSet = false → newResolvedTags v = ["generic"])
    ∧ (saveNote n t).rows.getLast?
        = some ⟨nextId t, n.time.day, n.time.month, n.time.year, n.time.unix,
            n.text, "[" ++ joinSpace n.tags ++ "]"⟩ := by
  constructor
  · intro h
    unfold newResolvedTags
    rw [h]
    simpa using tagListSet_generic
  · simp [saveNote, tagListString, List.getLast?_append_cons]

/-- C3 witness: the invocation `new "hello"` supplies no tag option and its
resolved tag set is ["generic"]. -/
theorem C3_default_tag_amended_witness :
    newResolvedTags { posArgs := ["hello"], rawArgCount := 1 } = ["generic"] :=
  (C3_default_tag_amended { posArgs := ["hello"], rawArgCount := 1 }
      ⟨⟨1, 1, 1, 1⟩, "x", ["generic"]⟩ { rows := [] }).1 rfl

/-- C7: on every table, a date string splitting as day/month/year without the
usa flag selects the same rows as the string with day and month swapped and
the usa flag set. -/
theorem C7_date_usa_equivalence (d1 d2 : String) (a b c : List Char)
    (rest : List (List Char)) (t : Table)
    (h1 : goSplit '/' d1.data = a :: b :: c :: rest)
    (h2 : goSplit '/' d2.data = b :: a :: c :: rest) :
    showNoteByDate d1 false t = showNoteByDate d2 true t := by
  simp only [showNoteByDate, h1, h2]
  rfl

/-- C7 witness: `show -date 01/02/2023` and `show -date 02/01/2023 -usa`
agree and both return the row stored with day 1, month 2, year 2023. -/
theorem C7_date_usa_equivalence_witness :
    showNoteByDate "01/02/2023" false { rows := [⟨1, 1, 2, 2023, 0, "x", "[generic]"⟩] }
        = showNoteByDate "02/01/2023" true { rows := [⟨1, 1, 2, 2023, 0, "x", "[generic]"⟩] }
    ∧ showNoteByDate "01/02/2023" false { rows := [⟨1, 1, 2, 2023, 0, "x", "[generic]"⟩] }
        = some [⟨1, 1, 2, 2023, 0, "x", "[generic]"⟩] :=
  ⟨C7_date_usa_equivalence "01/02/2023" "02/01/2023" ['0', '1'] ['0', '2']
      ['2', '0', '2', '3'] [] { rows := [⟨1, 1, 2, 2023, 0, "x", "[generic]"⟩] }
      (by decide) (by decide),
    by decide⟩

/-- C8 counterexample: the malformed (non-numeric) date "a/b/c" does not end
in a runtime parse failure — the query completes, its fields parsed as 0, and
even returns the stored all-zero row. -/
theorem C8_counterexample :
    showNoteByDate "a/b/c" false { rows := [⟨1, 0, 0, 0, 0, "z", "[generic]"⟩] }
      = some [⟨1, 0, 0, 0, 0, "z", "[generic]"⟩] := by
  decide

/-- C8 amended: a date string with fewer than three slash-separated segments
causes a runtime index-out-of-range panic before any query runs, while a
string with at least three segments always completes: each non-numeric field
is silently parsed as 0 and the composite query is issued. -/
theorem C8_malformed_date_amended (s : String) (u : Bool) (t : Table) :
    (showNoteByDate s u t = none ↔ (goSplit '/' s.data).length < 3)
    ∧ showNoteByDate "a/b/c" u t = some (queryByDate 0 0 0 t) := by
  constructor
  · rcases hl : goSplit '/' s.data with _ | ⟨p0, _ | ⟨p1, _ | ⟨p2, rest⟩⟩⟩ <;>
      cases u <;> simp [showNoteByDate, hl]
  · have hsplit : goSplit '/' "a/b/c".data = [['a'], ['b'], ['c']] := by decide
    have ha : goAtoi ['a'] = 0 := by decide
    have hb : goAtoi ['b'] = 0 := by decide
    have hc : goAtoi ['c'] = 0 := by decide
    cases u <;> simp [showNoteByDate, hsplit, ha, hb, hc]

/-- C9 counterexample: a show invocation with no filter — a usage error — on
a fresh database creates the notes table: the persisted schema changes from
absent to present. -/
theorem C9_counterexample :
    runShowCmd {} ⟨1, 1, 2023, 0⟩ none = (ShowOutcome.usageExit, some { rows := [] })
    ∧ (some ({ rows := [] } : Table)) ≠ none :=
  ⟨by decide, by decide⟩

/-- C9 amended: every usage-error invocation (show with no filter, delete
without -all, new on its contradictory-options path) prints option help and
exits non-zero with all rows unchanged — no row is inserted or removed — the
only persisted effect being the idempotent creation of the notes table when
it was absent. -/
theorem C9_usage_frame_amended (f : ShowFlags) (now : Timestamp) (db : Option Table)
    (stdin : String) (v : NewInvocation) (ed : String) (ts : Timestamp) :
    (showSetFilters f = [] →
      runShowCmd f now db = (ShowOutcome.usageExit, some (ensureTable db)))
    ∧ runDeleteCmd false stdin db = (DeleteOutcome.usageExit, some (ensureTable db))
    ∧ (runNewResolve v = NewOutcome.usageExit →
        runNewCmd v ed ts db = (NewCmdOutcome.usageExit, some (ensureTable db)))
    ∧ (ensureTable db).rows = dbRows db := by
  refine ⟨fun h => ?_, rfl, fun h => ?_, ?_⟩
  · simp [runShowCmd, runShow, showDispatch_usage_of_none h]
  · simp [runNewCmd, h]
  · cases db <;> rfl

/-- C9 witness: a filterless show invocation on a one-row database exits with
a usage error and the row survives. -/
theorem C9_usage_frame_amended_witness :
    runShowCmd {} ⟨2, 2, 2023, 5⟩ (some { rows := [⟨1, 2, 2, 2023, 5, "keep", "[generic]"⟩] })
      = (ShowOutcome.usageExit, some { rows := [⟨1, 2, 2, 2023, 5, "keep", "[generic]"⟩] }) := by
  have h := (C9_usage_frame_amended {} ⟨2, 2, 2023, 5⟩
      (some { rows := [⟨1, 2, 2, 2023, 5, "keep", "[generic]"⟩] }) "" {} "" ⟨1, 1, 1, 1⟩).1
    (by decide)
  simpa [ensureTable] using h

/-- C10 witness: an input starting with a space declines even though a y
follows, and the table is unchanged. -/
theorem C10_delete_first_rune_witness :
    runDeleteCmd true (String.mk [' ', 'y'])
        (some { rows := [⟨1, 1, 1, 1, 1, "x", "[generic]"⟩] })
      = (DeleteOutcome.ok, some { rows := [⟨1, 1, 1, 1, 1, "x", "[generic]"⟩] }) :=
  (C10_delete_first_rune ' ' ['y'] []
      (some { rows := [⟨1, 1, 1, 1, 1, "x", "[generic]"⟩] })).2.2
    (by decide) (by decide)

end Notectl
